import Mathlib

/-!
Verification development for the `runner` process supervisor
(github.com/cdzombak/runner).

The definitions below are a shallow embedding of the program's core:
the retry/health engine `runner` (src/unnamed/part_005), the flag-slice
parser `IntSlice.Set` (src/slices.go), the censoring helper
`censoredEnvVarValue` (src/envprivacy.go), the delivery fan-out
`executeDeliveries` (src/deliver.go), the log writer `writeLogs`
(src/logfile.go) and the orchestration tail of `main` (src/main.go).

External effects (running the child process, the wall clock, the SMTP /
HTTP transports, the filesystem) are modelled as oracle parameters:
an attempt oracle gives, for each attempt index, the start/end
timestamps and the launch result that the OS would have produced;
a channel-attempt oracle gives each delivery channel's transport
outcome; a boolean models whether log persistence succeeds.
Machine integers are modelled as `Int` (Go `int` arithmetic in this
program never overflows in the claims' range), timestamps as `Int`,
and Go strings as Lean `String` (byte-level operations on ASCII data
coincide with character-level ones).
-/

namespace Runner

/-- `sub` occurs as a contiguous run inside `l`. -/
def listIsInfixOf (sub : List Char) : List Char → Bool
  | [] => sub.isEmpty
  | a :: t => sub.isPrefixOf (a :: t) || listIsInfixOf sub t

/-- Go `strings.Contains(s, sub)`: `sub` occurs as a contiguous substring
of `s`.  (On valid UTF-8 data, byte-level infix coincides with
character-level infix because UTF-8 is self-synchronizing.) -/
def goContains (s sub : String) : Bool :=
  listIsInfixOf sub.data s.data

/-- The result of one `cmd.CombinedOutput()` call, as provided by the OS:
either the child was launched and exited with the given code and combined
output, or the launch itself failed (`err` was not an `exec.ExitError`,
so `cmd.ProcessState` stays nil) with the given error text. -/
inductive LaunchResult where
  | launched (exitCode : Int) (output : String)
  | launchFailure (errText : String)
deriving Repr, DecidableEq

/-- One attempt as scheduled by the outside world: the two `time.Now()`
readings surrounding `cmd.CombinedOutput()` and its result. -/
structure AttemptWorld where
  startTime : Int
  endTime : Int
  result : LaunchResult
deriving Repr

/-- `runOutputConfig` (src/unnamed/part_005 lines 27-35). -/
structure RunOutputConfig where
  jobName : String := ""
  hostname : String := ""
  hideEnv : Bool := false
  alwaysPrint : Bool := false
  printIfMatch : List String := []
  printIfNotMatch : List String := []
  setupWarnings : List String := []

/-- `runConfig` (src/unnamed/part_005 lines 16-25).  `retries` is a Go
`int`, kept as `Int`; `retryDelay` is kept as whole seconds because the
engine only renders its rounded seconds value.  The `runAsUser` branch
only alters the child's credentials and environment, which live behind
the attempt oracle, so it is not represented here. -/
structure RunConfig where
  programName : String := ""
  programArgs : List String := []
  workDir : String := ""
  healthyExitCodes : List Int := []
  retries : Int := 0
  retryDelaySeconds : Int := 0
  outputConfig : RunOutputConfig := {}

/-- `exec.Command(name, args...).String()`: the resolved path and the
arguments joined by single spaces (path resolution is environmental and
modelled as the identity). -/
def cmdString (cfg : RunConfig) : String :=
  String.intercalate " " (cfg.programName :: cfg.programArgs)

/-- The attempt output recorded when the launch itself failed:
`fmt.Sprintf("Error: Failed to run '%s': %s", cmd.String(), err)`
(src/unnamed/part_005 line 112). -/
def launchFailureOutput (cfg : RunConfig) (errText : String) : String :=
  "Error: Failed to run \x27" ++ cmdString cfg ++ "\x27: " ++ errText

/-- The `cmdOutStr` value after the error handling block
(src/unnamed/part_005 lines 101-114). -/
def attemptOutput (cfg : RunConfig) : LaunchResult → String
  | .launched _ out => out
  | .launchFailure errText => launchFailureOutput cfg errText

/-- The per-iteration `exitCode` value (src/unnamed/part_005 lines
116-119): `cmd.ProcessState.ExitCode()` when the process ran, and the
`-1` sentinel when `cmd.ProcessState` is nil (launch failure). -/
def attemptExit : LaunchResult → Int
  | .launched e _ => e
  | .launchFailure _ => -1

/-- Everything one loop iteration extracts from an attempt. -/
structure AttemptRecord where
  exitCode : Int
  output : String
  startTime : Int
  endTime : Int
deriving Repr, DecidableEq

def mkDefaultRecord : AttemptRecord :=
  { exitCode := 0, output := "", startTime := 0, endTime := 0 }

def attemptRecordAt (cfg : RunConfig) (oracle : Nat → AttemptWorld) (j : Nat) :
    AttemptRecord :=
  { exitCode := attemptExit (oracle j).result
    output := attemptOutput cfg (oracle j).result
    startTime := (oracle j).startTime
    endTime := (oracle j).endTime }

/-- The health check of src/unnamed/part_005 lines 122-129: the loop
`for _, v := range config.healthyExitCodes { if exitCode == v ... }`
fires exactly when the exit code is a member of the slice. -/
def healthyFor (codes : List Int) (e : Int) : Bool :=
  codes.contains e

/-- Whether the `j`-th attempt of this run is classified healthy. -/
def healthyAt (cfg : RunConfig) (oracle : Nat → AttemptWorld) (j : Nat) : Bool :=
  healthyFor cfg.healthyExitCodes (attemptRecordAt cfg oracle j).exitCode

/-- The combined effect of the two match-check blocks
(src/unnamed/part_005 lines 131-146) on this attempt's own output. -/
def matchCond (cfg : RunConfig) (out : String) : Bool :=
  cfg.outputConfig.printIfMatch.any (fun v => goContains out v) ||
  cfg.outputConfig.printIfNotMatch.any (fun v => !goContains out v)

/-- The surfacing condition a healthy terminal attempt produces. -/
def surfaceAt (cfg : RunConfig) (oracle : Nat → AttemptWorld) (j : Nat) : Bool :=
  cfg.outputConfig.alwaysPrint || matchCond cfg (attemptRecordAt cfg oracle j).output

/-- The retry separator (src/unnamed/part_005 lines 78-81):
`"\n- Retrying after %.0f seconds -\n\n"` of the rounded delay. -/
def retryMarker (cfg : RunConfig) : String :=
  "\n- Retrying after " ++ toString cfg.retryDelaySeconds ++ " seconds -\n\n"

/-- The engine's mutable loop state (src/unnamed/part_005 lines 64-70).
`outerExitCode` is the `exitCode` variable declared at line 70.  The
declaration `exitCode := -1` at line 116 introduces a fresh variable
that shadows it for the rest of the loop body, so the loop never writes
to the outer variable; the embedding mirrors that by never updating
this field.  `attempts` is bookkeeping recording the per-iteration
values of the inner (shadowing) variables. -/
structure LoopState where
  programOutput : String
  succeeded : Bool
  shouldPrint : Bool
  startTime : Int
  endTime : Int
  outerExitCode : Int
  attempts : List AttemptRecord

/-- One iteration of the retry loop body (src/unnamed/part_005 lines
72-146), given whether this iteration is a retry and the attempt data.
Returns the updated state and whether the attempt was healthy (which
in the source sets `triesRemaining = 0`). -/
def stepAttempt (cfg : RunConfig) (isRetry : Bool) (rec : AttemptRecord)
    (st : LoopState) : LoopState × Bool :=
  let st1 := if isRetry then
    { st with programOutput := st.programOutput ++ retryMarker cfg } else st
  let st2 := { st1 with
    startTime := rec.startTime
    endTime := rec.endTime
    programOutput := st1.programOutput ++ rec.output
    attempts := st1.attempts ++ [rec] }
  let healthy := healthyFor cfg.healthyExitCodes rec.exitCode
  let st3 := if healthy then
    { st2 with succeeded := true, shouldPrint := cfg.outputConfig.alwaysPrint }
    else st2
  let st4 := if !st3.shouldPrint &&
      cfg.outputConfig.printIfMatch.any (fun v => goContains rec.output v) then
    { st3 with shouldPrint := true } else st3
  let st5 := if !st4.shouldPrint &&
      cfg.outputConfig.printIfNotMatch.any (fun v => !goContains rec.output v) then
    { st4 with shouldPrint := true } else st4
  (st5, healthy)

/-- The initial `triesRemaining := 1 + config.retries`
(src/unnamed/part_005 line 67); the loop guard is `> 0` so the
countdown is faithfully a `Nat`. -/
def initTries (cfg : RunConfig) : Nat :=
  (1 + cfg.retries).toNat

/-- The retry loop (src/unnamed/part_005 lines 72-147).  `fuel` is the
current `triesRemaining`, `idx` the index of the next attempt.  A
healthy attempt sets `triesRemaining = 0`, i.e. stops recursing. -/
def runnerLoop (cfg : RunConfig) (oracle : Nat → AttemptWorld) :
    Nat → Nat → LoopState → LoopState
  | 0, _, st => st
  | fuel+1, idx, st =>
    let isRetry := decide (0 < cfg.retries) && decide (fuel + 1 ≠ initTries cfg)
    let r := stepAttempt cfg isRetry (attemptRecordAt cfg oracle idx) st
    if r.2 then r.1 else runnerLoop cfg oracle fuel (idx+1) r.1

/-- The engine state before the loop (src/unnamed/part_005 lines 64-70):
`succeeded := false`, `shouldPrint := true`, `exitCode := -1`, zero
times, empty output. -/
def initialLoopState : LoopState :=
  { programOutput := "", succeeded := false, shouldPrint := true
    startTime := 0, endTime := 0, outerExitCode := -1, attempts := [] }

/-- `runner(config)` up to the end of the retry loop: the terminal
engine state from which the report and the returned `runOutput` are
built. -/
def runnerGo (cfg : RunConfig) (oracle : Nat → AttemptWorld) : LoopState :=
  runnerLoop cfg oracle (initTries cfg) 0 initialLoopState

/-- How many times the engine executed the child program. -/
def attemptsMade (cfg : RunConfig) (oracle : Nat → AttemptWorld) : Nat :=
  (runnerGo cfg oracle).attempts.length

/-- The terminal attempt's record. -/
def lastAttempt (cfg : RunConfig) (oracle : Nat → AttemptWorld) : AttemptRecord :=
  (runnerGo cfg oracle).attempts.getLastD mkDefaultRecord

/-- `endTime.Sub(startTime)` as rendered in the report
(src/unnamed/part_005 line 178). -/
def reportDuration (st : LoopState) : Int :=
  st.endTime - st.startTime

/-- The status string (src/unnamed/part_005 lines 157-162). -/
def statusStr (succeeded : Bool) : String :=
  if succeeded then "Succeeded" else "Failed"

/-- `jobSummaryOutput` (src/unnamed/part_005 lines 165-184).  The two
`time.Format` calls and `Duration.String()` are external renderings,
passed in as parameters. -/
def jobSummaryOutput (cfg : RunConfig) (res : LoopState)
    (fmtTime fmtDur : Int → String) : String :=
  "[" ++ cfg.outputConfig.hostname ++ "] " ++ statusStr res.succeeded ++
    " running " ++ cfg.outputConfig.jobName ++ "\n" ++
  "Working directory: " ++ cfg.workDir ++ "\n" ++
  "Command: " ++ cmdString cfg ++ "\n" ++
  "Exit code: " ++ toString res.outerExitCode ++ "\n\n" ++
  "Duration: " ++ fmtDur (reportDuration res) ++ "\n" ++
  "Start time: " ++ fmtTime res.startTime ++ "\n" ++
  "End time: " ++ fmtTime res.endTime ++ "\n" ++
  "Retries allowed: " ++ toString cfg.retries ++ "\n\n"

/-- The number of loop iterations the engine performs with the given
fuel starting at attempt `idx` (the loop stops early exactly on a
healthy attempt). -/
def loopCount (cfg : RunConfig) (oracle : Nat → AttemptWorld) :
    Nat → Nat → Nat
  | 0, _ => 0
  | fuel+1, idx =>
    if healthyAt cfg oracle idx then 1
    else 1 + loopCount cfg oracle fuel (idx+1)

/-- The healthy-exit-code default applied by `main` before the engine
runs (src/main.go lines 189-191):
`if len(runCfg.healthyExitCodes) == 0 { runCfg.healthyExitCodes = []int{0} }`. -/
def normalizeHealthyExitCodes (codes : List Int) : List Int :=
  if codes.isEmpty then [0] else codes

/-- The engine as invoked by `main`, i.e. after the healthy-exit-code
normalization. -/
def runnerFromMain (cfg : RunConfig) (oracle : Nat → AttemptWorld) : LoopState :=
  runnerGo
    { cfg with healthyExitCodes := normalizeHealthyExitCodes cfg.healthyExitCodes }
    oracle

/-! ### Delivery fan-out (src/deliver.go) -/

/-- The three delivery channels of `deliveryConfig` (src/deliver.go
lines 18-22). -/
inductive Channel where
  | mail
  | ntfy
  | discord
deriving DecidableEq, Repr

/-- Which sub-configs of `deliveryConfig` are non-nil. -/
structure DeliveryConfig where
  mail : Bool := false
  ntfy : Bool := false
  discord : Bool := false

/-- `extendErrSlice` (src/deliver.go lines 162-167): append the error
iff it is non-nil.  Errors are carried as a channel tag (the
channel-identifying text each `execute*Delivery` wraps around the
transport error) together with the transport error text. -/
def extendErrSlice (errs : List (Channel × String))
    (err : Option (Channel × String)) : List (Channel × String) :=
  match err with
  | none => errs
  | some e => errs ++ [e]

/-- The result of `execute*Delivery` for one channel, given the
transport outcome for that channel (`none` = delivered, `some e` =
the transport failed with text `e`): the error, tagged with the
channel it identifies. -/
def channelResult (att : Channel → Option String) (c : Channel) :
    Option (Channel × String) :=
  (att c).map (fun e => (c, e))

/-- `executeDeliveries` (src/deliver.go lines 54-69): attempt each
configured channel in the fixed order mail, ntfy, discord, extending
the error slice after each.  The first component is bookkeeping
recording which channels were attempted, in order. -/
def executeDeliveries (cfg : DeliveryConfig) (att : Channel → Option String) :
    List Channel × List (Channel × String) :=
  let s0 : List Channel × List (Channel × String) := ([], [])
  let s1 := if cfg.mail then
    (s0.1 ++ [Channel.mail], extendErrSlice s0.2 (channelResult att Channel.mail))
    else s0
  let s2 := if cfg.ntfy then
    (s1.1 ++ [Channel.ntfy], extendErrSlice s1.2 (channelResult att Channel.ntfy))
    else s1
  let s3 := if cfg.discord then
    (s2.1 ++ [Channel.discord], extendErrSlice s2.2 (channelResult att Channel.discord))
    else s2
  s3

/-- The channels with a non-nil sub-config, in the order
`executeDeliveries` visits them. -/
def configuredChannels (cfg : DeliveryConfig) : List Channel :=
  (if cfg.mail then [Channel.mail] else []) ++
  (if cfg.ntfy then [Channel.ntfy] else []) ++
  (if cfg.discord then [Channel.discord] else [])

/-! ### Log persistence (src/logfile.go) and orchestration (src/main.go) -/

/-- The channel-identifying text each `execute*Delivery` wraps around a
transport error (src/deliver.go lines 92, 119, 150 and similar). -/
def channelErrPrefix : Channel → String
  | Channel.mail => "failed to send email: "
  | Channel.ntfy => "failed to send ntfy notification: "
  | Channel.discord => "failed POSTing Discord webhook: "

/-- `err.Error()` of a tagged delivery error. -/
def renderDeliveryErr (x : Channel × String) : String :=
  channelErrPrefix x.1 ++ x.2

/-- The delivery-errors section `writeLogs` appends (src/logfile.go
lines 44-50). -/
def deliveryErrsSection (errStrings : List String) : String :=
  "\n--- Runner Delivery Errors ---\n\n" ++
    String.join (errStrings.map (fun e => e ++ "\n"))

/-- The full log file content `writeLogs` builds (src/logfile.go lines
42-50): the report, then the labeled delivery-errors section iff any
delivery errors exist. -/
def writeLogsContent (output : String) (errStrings : List String) : String :=
  output ++ (if errStrings.isEmpty then "" else deliveryErrsSection errStrings)

/-- `writeLogs` (src/logfile.go lines 23-66).  Directory creation,
chown and the file write are external filesystem effects, summarized
by `persistOk`.  Returns the content actually persisted (if any) and
whether `writeLogs` returned a non-nil error. -/
def writeLogs (logDir : String) (output : String) (errStrings : List String)
    (persistOk : Bool) : Option String × Bool :=
  if logDir = "" then (none, false)
  else if persistOk then (some (writeLogsContent output errStrings), false)
  else (none, true)

/-- What the tail of `main` (src/main.go lines 404-413) produces. -/
structure OrchOutcome where
  printed : Option String
  channelsAttempted : List Channel
  deliveryErrs : List (Channel × String)
  logContent : Option String
  fatal : Bool

/-- The orchestration tail of `main` (src/main.go lines 404-413):
print and deliver only when `runOut.shouldPrint`; always call
`writeLogs`; `log.Fatalf` (non-zero process exit) iff `writeLogs`
errs.  `shouldPrint` and `output` are the corresponding `runOutput`
fields of the engine result. -/
def orchestrate (dcfg : DeliveryConfig) (att : Channel → Option String)
    (logDir : String) (shouldPrint : Bool) (output : String)
    (persistOk : Bool) : OrchOutcome :=
  let deliv := if shouldPrint then executeDeliveries dcfg att
    else (([] : List Channel), ([] : List (Channel × String)))
  let printed := if shouldPrint then some output else none
  let lw := writeLogs logDir output (deliv.2.map renderDeliveryErr) persistOk
  { printed := printed
    channelsAttempted := deliv.1
    deliveryErrs := deliv.2
    logContent := lw.1
    fatal := lw.2 }

/-! ### Environment variable censoring (src/envprivacy.go) -/

def SMTPPassEnvVar : String := "RUNNER_SMTP_PASS"

def minLenForCensorHint : Nat := 5

/-- `stringSliceContains` (src/envprivacy.go lines 35-42). -/
def stringSliceContains (slice : List String) (value : String) : Bool :=
  slice.contains value

/-- `censoredEnvVarValue` (src/envprivacy.go lines 25-33).  `censoredVars`
is the `censoredEnvVars()` environment snapshot.  Lengths and character
indexing are Go byte-level; on ASCII values (the counterexamples below)
they coincide with the character-level operations used here. -/
def censoredEnvVarValue (censoredVars : List String) (varName value : String) :
    String :=
  if !(stringSliceContains censoredVars varName) && !(varName == SMTPPassEnvVar)
  then value
  else if value.length < minLenForCensorHint then
    "[" ++ toString value.length ++ " chars]"
  else
    String.mk [value.data.headD 'x'] ++ "[" ++ toString (value.length - 2) ++
      " chars]" ++ String.mk [value.data.getLastD 'x']

/-! ### Flag-slice parsing (src/slices.go) -/

/-- The numeric value of a list of decimal digit characters. -/
def digitsToNat (ds : List Char) : Nat :=
  ds.foldl (fun acc d => acc * 10 + (d.toNat - 48)) 0

/-- Go `strconv.Atoi(s)` (base 10, 64-bit int): optional sign, then a
non-empty run of decimal digits, within the `int64` range; everything
else (including range overflow) yields a non-nil error, modelled as
`none`. -/
def goAtoi (s : String) : Option Int :=
  let signed : Bool × List Char :=
    match s.data with
    | '-' :: rest => (true, rest)
    | '+' :: rest => (false, rest)
    | cs => (false, cs)
  let ds := signed.2
  if ds.isEmpty then none
  else if !(ds.all Char.isDigit) then none
  else
    let n : Int := (digitsToNat ds : Nat)
    let v : Int := if signed.1 then -n else n
    if v < -(2 ^ 63) || v > 2 ^ 63 - 1 then none else some v

/-- `IntSlice.Set` (src/slices.go lines 20-28): parse failures silently
append `-1`; successes append the parsed value; the returned error is
always nil. -/
def IntSliceSet (i : List Int) (value : String) : List Int × Option String :=
  match goAtoi value with
  | none => (i ++ [-1], none)
  | some tmp => (i ++ [tmp], none)

/-- Whether a launch result is a failure to start the child. -/
def launchFailed : LaunchResult → Bool
  | .launched _ _ => false
  | .launchFailure _ => true

/-- The number of attempts the engine will make for this run. -/
def nGo (cfg : RunConfig) (oracle : Nat → AttemptWorld) : Nat :=
  loopCount cfg oracle (initTries cfg) 0

/-! ### Concrete runs used as test inputs -/

/-- A run whose child binary does not exist: every `CombinedOutput` call
reports a non-ExitError failure. -/
def cfgLaunchFail : RunConfig :=
  { programName := "/nonexistent", healthyExitCodes := [0], retries := 1 }

def oracleLaunchFail : Nat → AttemptWorld := fun j =>
  { startTime := 10 * j, endTime := 10 * j + 1
    result := .launchFailure "fork/exec /nonexistent: no such file or directory" }

/-- A run with one retry whose first attempt exits 1 and whose second
attempt exits 0. -/
def cfgTwoTries : RunConfig :=
  { programName := "/bin/job", healthyExitCodes := [0], retries := 1 }

def oracleSecondHealthy : Nat → AttemptWorld := fun j =>
  { startTime := 100 * j, endTime := 100 * j + 10
    result := .launched (if j = 0 then 1 else 0) ("attempt " ++ toString j) }

/-- A run with no retries whose single attempt exits 0. -/
def cfgOneTry : RunConfig :=
  { programName := "/bin/job", healthyExitCodes := [0], retries := 0 }

def oracleHealthyOk : Nat → AttemptWorld := fun _ =>
  { startTime := 0, endTime := 5, result := .launched 0 "ok" }

/-- A run with no retries, one healthy attempt, and a `printIfMatch`
rule that matches the attempt's output. -/
def cfgPrintMatch : RunConfig :=
  { programName := "/bin/job", healthyExitCodes := [0], retries := 0
    outputConfig := { printIfMatch := ["ok"] } }

/-! ## Helper lemmas -/

/-- One loop iteration, written as a single record value. -/
theorem stepAttempt_eq (cfg : RunConfig) (isRetry : Bool) (rec : AttemptRecord)
    (st : LoopState) :
    stepAttempt cfg isRetry rec st =
      ({ programOutput :=
            (if isRetry then st.programOutput ++ retryMarker cfg
              else st.programOutput) ++ rec.output
         succeeded := st.succeeded || healthyFor cfg.healthyExitCodes rec.exitCode
         shouldPrint :=
            (if healthyFor cfg.healthyExitCodes rec.exitCode
              then cfg.outputConfig.alwaysPrint else st.shouldPrint) ||
              matchCond cfg rec.output
         startTime := rec.startTime
         endTime := rec.endTime
         outerExitCode := st.outerExitCode
         attempts := st.attempts ++ [rec] },
       healthyFor cfg.healthyExitCodes rec.exitCode) := by
  cases isRetry <;>
    cases h1 : healthyFor cfg.healthyExitCodes rec.exitCode <;>
      cases h2 : cfg.outputConfig.printIfMatch.any (fun v => goContains rec.output v) <;>
        cases h3 : cfg.outputConfig.printIfNotMatch.any (fun v => !goContains rec.output v) <;>
          cases h4 : st.shouldPrint <;>
            cases h5 : cfg.outputConfig.alwaysPrint <;>
              simp [stepAttempt, matchCond, h1, h2, h3, h4, h5]

theorem loopCount_pos (cfg : RunConfig) (oracle : Nat → AttemptWorld) :
    ∀ (fuel idx : Nat), 1 ≤ fuel → 1 ≤ loopCount cfg oracle fuel idx := by
  intro fuel idx h
  match fuel, h with
  | fuel+1, _ =>
    unfold loopCount
    split <;> omega

theorem loopCount_le (cfg : RunConfig) (oracle : Nat → AttemptWorld) :
    ∀ (fuel idx : Nat), loopCount cfg oracle fuel idx ≤ fuel := by
  intro fuel
  induction fuel with
  | zero => intro idx; simp [loopCount]
  | succ f ih =>
    intro idx
    unfold loopCount
    split
    · omega
    · have := ih (idx + 1); omega

/-- Characterization of the retry loop: starting from a not-yet-succeeded,
to-be-printed state (the loop invariant at every iteration boundary),
the loop executes attempts `idx, idx+1, ...` for `loopCount` iterations,
its terminal flags are decided by the terminal attempt alone, every
non-terminal attempt is unhealthy, and an early exit happens only on a
healthy terminal attempt. -/
theorem runnerLoop_spec (cfg : RunConfig) (oracle : Nat → AttemptWorld) :
    ∀ (fuel idx : Nat) (st : LoopState),
      st.succeeded = false → st.shouldPrint = true → 1 ≤ fuel →
      (runnerLoop cfg oracle fuel idx st).attempts =
          st.attempts ++
            (List.range' idx (loopCount cfg oracle fuel idx)).map
              (attemptRecordAt cfg oracle) ∧
      (runnerLoop cfg oracle fuel idx st).succeeded =
          healthyAt cfg oracle (idx + loopCount cfg oracle fuel idx - 1) ∧
      (runnerLoop cfg oracle fuel idx st).shouldPrint =
          (if healthyAt cfg oracle (idx + loopCount cfg oracle fuel idx - 1)
            then surfaceAt cfg oracle (idx + loopCount cfg oracle fuel idx - 1)
            else true) ∧
      (runnerLoop cfg oracle fuel idx st).startTime =
          (attemptRecordAt cfg oracle
            (idx + loopCount cfg oracle fuel idx - 1)).startTime ∧
      (runnerLoop cfg oracle fuel idx st).endTime =
          (attemptRecordAt cfg oracle
            (idx + loopCount cfg oracle fuel idx - 1)).endTime ∧
      (runnerLoop cfg oracle fuel idx st).outerExitCode = st.outerExitCode ∧
      (∀ j, idx ≤ j → j + 1 < idx + loopCount cfg oracle fuel idx →
          healthyAt cfg oracle j = false) ∧
      (loopCount cfg oracle fuel idx < fuel →
          healthyAt cfg oracle (idx + loopCount cfg oracle fuel idx - 1) = true) := by
  intro fuel
  induction fuel with
  | zero => intro idx st _ _ h; omega
  | succ f ih =>
    intro idx st hsucc hsp _
    have hstep := stepAttempt_eq cfg
      (decide (0 < cfg.retries) && decide (f + 1 ≠ initTries cfg))
      (attemptRecordAt cfg oracle idx) st
    have hrl : runnerLoop cfg oracle (f+1) idx st =
        if healthyAt cfg oracle idx then
          (stepAttempt cfg
            (decide (0 < cfg.retries) && decide (f + 1 ≠ initTries cfg))
            (attemptRecordAt cfg oracle idx) st).1
        else runnerLoop cfg oracle f (idx+1)
          (stepAttempt cfg
            (decide (0 < cfg.retries) && decide (f + 1 ≠ initTries cfg))
            (attemptRecordAt cfg oracle idx) st).1 := by
      rw [runnerLoop]
      have h2 : (stepAttempt cfg
          (decide (0 < cfg.retries) && decide (f + 1 ≠ initTries cfg))
          (attemptRecordAt cfg oracle idx) st).2 = healthyAt cfg oracle idx := by
        rw [hstep]; rfl
      rw [h2]
    cases hH : healthyAt cfg oracle idx with
    | true =>
      have hn : loopCount cfg oracle (f+1) idx = 1 := by
        simp [loopCount, hH]
      rw [hrl, hH, hn, hstep]
      have hidx : idx + 1 - 1 = idx := by omega
      refine ⟨?_, ?_, ?_, ?_, ?_, ?_, ?_, ?_⟩
      · simp
      · simp [hidx, hsucc, hH, healthyAt, healthyFor]
      · have : healthyFor cfg.healthyExitCodes
            (attemptRecordAt cfg oracle idx).exitCode = true := hH
        simp [hidx, hH, this, surfaceAt]
      · simp [hidx]
      · simp [hidx]
      · simp
      · intro j h1 h2; omega
      · intro _; rw [hidx]; exact hH
    | false =>
      have hn : loopCount cfg oracle (f+1) idx = 1 + loopCount cfg oracle f (idx+1) := by
        simp [loopCount, hH]
      have hne : healthyFor cfg.healthyExitCodes
          (attemptRecordAt cfg oracle idx).exitCode = false := hH
      rw [hrl, hH, if_neg Bool.false_ne_true]
      rcases Nat.eq_zero_or_pos f with hf | hf
      · subst hf
        have hn0 : loopCount cfg oracle 0 (idx+1) = 0 := by simp [loopCount]
        rw [runnerLoop, hstep, hn, hn0]
        have hidx : idx + (1 + 0) - 1 = idx := by omega
        refine ⟨?_, ?_, ?_, ?_, ?_, ?_, ?_, ?_⟩
        · simp
        · simp [hidx, hsucc, hne, hH]
        · simp [hidx, hne, hsp, hH]
        · simp [hidx]
        · simp [hidx]
        · simp
        · intro j h1 h2; omega
        · intro h; omega
      · set st1 := (stepAttempt cfg
          (decide (0 < cfg.retries) && decide (f + 1 ≠ initTries cfg))
          (attemptRecordAt cfg oracle idx) st).1 with hst1
        have hsucc1 : st1.succeeded = false := by
          rw [hst1, hstep]; simp [hsucc, hne]
        have hsp1 : st1.shouldPrint = true := by
          rw [hst1, hstep]; simp [hne, hsp]
        have hatt1 : st1.attempts = st.attempts ++ [attemptRecordAt cfg oracle idx] := by
          rw [hst1, hstep]
        have houter1 : st1.outerExitCode = st.outerExitCode := by
          rw [hst1, hstep]
        obtain ⟨ga, gs, gp, gst, gen, go, gall, gearly⟩ :=
          ih (idx+1) st1 hsucc1 hsp1 hf
        have hnpos : 1 ≤ loopCount cfg oracle f (idx+1) :=
          loopCount_pos cfg oracle f (idx+1) hf
        have hidx2 : idx + 1 + loopCount cfg oracle f (idx+1) - 1 =
            idx + (1 + loopCount cfg oracle f (idx+1)) - 1 := by omega
        refine ⟨?_, ?_, ?_, ?_, ?_, ?_, ?_, ?_⟩
        · rw [ga, hatt1, hn, Nat.add_comm 1 (loopCount cfg oracle f (idx+1)),
            List.range'_succ]
          simp
        · rw [gs, hn, hidx2]
        · rw [gp, hn, hidx2]
        · rw [gst, hn, hidx2]
        · rw [gen, hn, hidx2]
        · rw [go, houter1]
        · intro j h1 h2
          rw [hn] at h2
          rcases Nat.eq_or_lt_of_le h1 with he | hlt
          · rw [← he]; exact hH
          · exact gall j hlt (by omega)
        · intro h
          rw [hn] at h
          rw [hn, hidx2.symm]
          exact gearly (by omega)

theorem initTries_pos (cfg : RunConfig) (h : 0 ≤ cfg.retries) :
    1 ≤ initTries cfg := by
  unfold initTries; omega

theorem getLastD_map_range' (f : Nat → AttemptRecord) (n : Nat) (h : 1 ≤ n)
    (d : AttemptRecord) :
    ((List.range' 0 n).map f).getLastD d = f (n - 1) := by
  obtain ⟨m, rfl⟩ : ∃ m, n = m + 1 := ⟨n - 1, by omega⟩
  rw [List.range'_concat]
  simp [List.getLastD_concat]

/-- `runnerLoop_spec` instantiated at the engine's entry state. -/
theorem runnerGo_spec (cfg : RunConfig) (oracle : Nat → AttemptWorld)
    (h : 0 ≤ cfg.retries) :
    (runnerGo cfg oracle).attempts =
        (List.range' 0 (nGo cfg oracle)).map (attemptRecordAt cfg oracle) ∧
    (runnerGo cfg oracle).succeeded = healthyAt cfg oracle (nGo cfg oracle - 1) ∧
    (runnerGo cfg oracle).shouldPrint =
        (if healthyAt cfg oracle (nGo cfg oracle - 1)
          then surfaceAt cfg oracle (nGo cfg oracle - 1) else true) ∧
    (runnerGo cfg oracle).startTime =
        (attemptRecordAt cfg oracle (nGo cfg oracle - 1)).startTime ∧
    (runnerGo cfg oracle).endTime =
        (attemptRecordAt cfg oracle (nGo cfg oracle - 1)).endTime ∧
    (runnerGo cfg oracle).outerExitCode = -1 ∧
    1 ≤ nGo cfg oracle ∧ nGo cfg oracle ≤ initTries cfg ∧
    (∀ j, j + 1 < nGo cfg oracle → healthyAt cfg oracle j = false) ∧
    (nGo cfg oracle < initTries cfg →
        healthyAt cfg oracle (nGo cfg oracle - 1) = true) := by
  have h1 := initTries_pos cfg h
  obtain ⟨ga, gs, gp, gst, gen, go, gall, gearly⟩ :=
    runnerLoop_spec cfg oracle (initTries cfg) 0 initialLoopState rfl rfl h1
  have hz : (0 : Nat) + loopCount cfg oracle (initTries cfg) 0 - 1 =
      nGo cfg oracle - 1 := by unfold nGo; omega
  have hdef : nGo cfg oracle = loopCount cfg oracle (initTries cfg) 0 := rfl
  rw [hz] at gs gp gst gen gearly
  refine ⟨ga, gs, gp, gst, gen, go, ?_, ?_, ?_, ?_⟩
  · exact loopCount_pos cfg oracle (initTries cfg) 0 h1
  · exact loopCount_le cfg oracle (initTries cfg) 0
  · intro j hj; exact gall j (Nat.zero_le j) (by omega)
  · exact gearly

theorem attemptsMade_eq (cfg : RunConfig) (oracle : Nat → AttemptWorld)
    (h : 0 ≤ cfg.retries) : attemptsMade cfg oracle = nGo cfg oracle := by
  unfold attemptsMade
  rw [(runnerGo_spec cfg oracle h).1]
  simp

theorem lastAttempt_eq (cfg : RunConfig) (oracle : Nat → AttemptWorld)
    (h : 0 ≤ cfg.retries) :
    lastAttempt cfg oracle = attemptRecordAt cfg oracle (nGo cfg oracle - 1) := by
  unfold lastAttempt
  rw [(runnerGo_spec cfg oracle h).1]
  exact getLastD_map_range' _ _ ((runnerGo_spec cfg oracle h).2.2.2.2.2.2.1) _

/-! ## Claims -/

/-- C2: for every run configuration and attempt sequence, an unhealthy
terminal attempt forces `shouldPrint = true`; a healthy terminal attempt
is surfaced iff `alwaysPrint` is set, or some `printIfMatch` substring
occurs in the final attempt's own output, or some `printIfNotMatch`
substring is absent from it; and `shouldPrint = false` implies
`succeeded = true`. -/
theorem c2_surfacing_policy (cfg : RunConfig) (oracle : Nat → AttemptWorld)
    (h : 0 ≤ cfg.retries) :
    (healthyFor cfg.healthyExitCodes (lastAttempt cfg oracle).exitCode = false →
      (runnerGo cfg oracle).shouldPrint = true) ∧
    (healthyFor cfg.healthyExitCodes (lastAttempt cfg oracle).exitCode = true →
      ((runnerGo cfg oracle).shouldPrint = true ↔
        (cfg.outputConfig.alwaysPrint = true ∨
          (∃ m ∈ cfg.outputConfig.printIfMatch,
            goContains (lastAttempt cfg oracle).output m = true) ∨
          (∃ m ∈ cfg.outputConfig.printIfNotMatch,
            goContains (lastAttempt cfg oracle).output m = false)))) ∧
    ((runnerGo cfg oracle).shouldPrint = false →
      (runnerGo cfg oracle).succeeded = true) := by
  obtain ⟨-, gs, gp, -, -, -, -, -, -, -⟩ := runnerGo_spec cfg oracle h
  have hl := lastAttempt_eq cfg oracle h
  have hh : healthyFor cfg.healthyExitCodes (lastAttempt cfg oracle).exitCode =
      healthyAt cfg oracle (nGo cfg oracle - 1) := by rw [hl]; rfl
  refine ⟨?_, ?_, ?_⟩
  · intro hf
    rw [hh] at hf
    rw [gp, hf]
    simp
  · intro ht
    rw [hh] at ht
    rw [gp, ht, if_pos rfl]
    unfold surfaceAt matchCond
    rw [← hl]
    simp [List.any_eq_true, Bool.not_eq_true']
  · intro hf
    rw [gp] at hf
    rw [gs]
    cases hH : healthyAt cfg oracle (nGo cfg oracle - 1) with
    | true => rfl
    | false => rw [hH] at hf; simp at hf

/-- Witness for C2 at a concrete healthy single-attempt run with a
matching `printIfMatch` rule. -/
theorem c2_surfacing_policy_witness :
    ((0 : Int) ≤ cfgPrintMatch.retries) ∧
    (healthyFor cfgPrintMatch.healthyExitCodes
        (lastAttempt cfgPrintMatch oracleHealthyOk).exitCode = true →
      ((runnerGo cfgPrintMatch oracleHealthyOk).shouldPrint = true ↔
        (cfgPrintMatch.outputConfig.alwaysPrint = true ∨
          (∃ m ∈ cfgPrintMatch.outputConfig.printIfMatch,
            goContains (lastAttempt cfgPrintMatch oracleHealthyOk).output m = true) ∨
          (∃ m ∈ cfgPrintMatch.outputConfig.printIfNotMatch,
            goContains (lastAttempt cfgPrintMatch oracleHealthyOk).output m = false)))) :=
  ⟨by decide,
    (c2_surfacing_policy cfgPrintMatch oracleHealthyOk (by decide)).2.1⟩

/-- C3 counterexample: with `retries = 1`, healthy set `{0}` and attempt
exit codes `[1, 0]`, the engine executes the child exactly
`retries + 1 = 2` times, yet not every attempt is unhealthy: the second
(terminal) attempt's exit code 0 is healthy.  This refutes "executes it
exactly r+1 times only if every attempt is unhealthy". -/
theorem c3_counterexample :
    attemptsMade cfgTwoTries oracleSecondHealthy = 2 ∧
    (1 + cfgTwoTries.retries).toNat = 2 ∧
    (runnerGo cfgTwoTries oracleSecondHealthy).attempts.map
      (fun a => a.exitCode) = [1, 0] ∧
    healthyFor cfgTwoTries.healthyExitCodes 0 = true := by
  refine ⟨by decide, by decide, by decide, by decide⟩

/-- C3 (amended): for every retry count r ≥ 0 the engine executes the
child at most r+1 times; every non-terminal attempt is unhealthy (hence
exactly r+1 executions only if each of the first r attempts is
unhealthy — the terminal attempt may be healthy); a healthy attempt
terminates the retry loop immediately even with budget remaining; and
r = 0 gives exactly one attempt. -/
theorem c3_attempt_budget (cfg : RunConfig) (oracle : Nat → AttemptWorld)
    (h : 0 ≤ cfg.retries) :
    attemptsMade cfg oracle ≤ (1 + cfg.retries).toNat ∧
    (∀ j, j + 1 < attemptsMade cfg oracle → healthyAt cfg oracle j = false) ∧
    (∀ k, k < attemptsMade cfg oracle → healthyAt cfg oracle k = true →
      attemptsMade cfg oracle = k + 1) ∧
    (cfg.retries = 0 → attemptsMade cfg oracle = 1) := by
  obtain ⟨-, -, -, -, -, -, g7, g8, g9, -⟩ := runnerGo_spec cfg oracle h
  have hm := attemptsMade_eq cfg oracle h
  have hit : initTries cfg = (1 + cfg.retries).toNat := rfl
  refine ⟨?_, ?_, ?_, ?_⟩
  · rw [hm, ← hit]; exact g8
  · intro j hj; rw [hm] at hj; exact g9 j hj
  · intro k hk hkh
    rw [hm] at hk ⊢
    by_contra hc
    have : k + 1 < nGo cfg oracle := by omega
    rw [g9 k this] at hkh
    exact Bool.false_ne_true hkh
  · intro h0
    have : initTries cfg = 1 := by rw [hit, h0]; rfl
    rw [hm]
    omega

/-- Witness for C3 (amended) at the concrete two-attempt run. -/
theorem c3_attempt_budget_witness :
    ((0 : Int) ≤ cfgTwoTries.retries) ∧
    attemptsMade cfgTwoTries oracleSecondHealthy ≤ (1 + cfgTwoTries.retries).toNat ∧
    (∀ j, j + 1 < attemptsMade cfgTwoTries oracleSecondHealthy →
      healthyAt cfgTwoTries oracleSecondHealthy j = false) :=
  ⟨by decide,
    (c3_attempt_budget cfgTwoTries oracleSecondHealthy (by decide)).1,
    (c3_attempt_budget cfgTwoTries oracleSecondHealthy (by decide)).2.1⟩

/-- C4: an attempt is classified healthy iff its exit code is a member
of the configured healthy-exit-code set; an empty set is normalized to
`{0}` by `main` before the engine runs, so with an empty configured set
the engine classifies an attempt healthy iff its exit code is 0. -/
theorem c4_healthy_classification (codes : List Int) (e : Int)
    (cfg : RunConfig) (oracle : Nat → AttemptWorld) (j : Nat) :
    (healthyFor codes e = true ↔ e ∈ codes) ∧
    normalizeHealthyExitCodes [] = [0] ∧
    (codes ≠ [] → normalizeHealthyExitCodes codes = codes) ∧
    (healthyFor (normalizeHealthyExitCodes []) e = true ↔ e = 0) ∧
    (cfg.healthyExitCodes = [] →
      (healthyAt { cfg with healthyExitCodes :=
            normalizeHealthyExitCodes cfg.healthyExitCodes } oracle j = true ↔
        (attemptRecordAt cfg oracle j).exitCode = 0)) := by
  refine ⟨?_, rfl, ?_, ?_, ?_⟩
  · simp [healthyFor]
  · intro hne; simp [normalizeHealthyExitCodes, hne]
  · simp [healthyFor, normalizeHealthyExitCodes]
  · intro hemp
    rw [hemp]
    simp [healthyAt, healthyFor, normalizeHealthyExitCodes, attemptRecordAt]

/-- Witness for C4 at the empty configured set and exit code 0. -/
theorem c4_healthy_classification_witness :
    (healthyFor ([] : List Int) 1 = true ↔ (1 : Int) ∈ ([] : List Int)) ∧
    normalizeHealthyExitCodes [] = [0] ∧
    (healthyFor (normalizeHealthyExitCodes []) 1 = true ↔ (1 : Int) = 0) ∧
    (healthyAt { cfgOneTry with healthyExitCodes :=
          normalizeHealthyExitCodes ([] : List Int) } oracleHealthyOk 0 = true ↔
      (attemptRecordAt { cfgOneTry with healthyExitCodes := [] }
        oracleHealthyOk 0).exitCode = 0) := by
  have h := c4_healthy_classification ([] : List Int) 1
    { cfgOneTry with healthyExitCodes := [] } oracleHealthyOk 0
  exact ⟨h.1, h.2.1, h.2.2.2.1, h.2.2.2.2 rfl⟩

theorem loopCount_all_unhealthy (cfg : RunConfig) (oracle : Nat → AttemptWorld)
    (hall : ∀ j, healthyAt cfg oracle j = false) :
    ∀ (fuel idx : Nat), loopCount cfg oracle fuel idx = fuel := by
  intro fuel
  induction fuel with
  | zero => intro idx; rfl
  | succ f ih =>
    intro idx
    have := ih (idx + 1)
    simp [loopCount, hall idx, this]
    omega

/-- C1 counterexample: with `retries = 1` and both `CombinedOutput`
calls failing to launch the child, the engine does not abort: it
retries the failed launch (2 attempts are executed), finishes with
`succeeded = false`, and the orchestration completes without a fatal
(`log.Fatalf`) exit, i.e. the process exit status is 0.  This refutes
"the failed launch is not retried ... the engine aborts the run
entirely, and the process terminates with a non-zero exit status". -/
theorem c1_counterexample :
    launchFailed (oracleLaunchFail 0).result = true ∧
    launchFailed (oracleLaunchFail 1).result = true ∧
    attemptsMade cfgLaunchFail oracleLaunchFail = 2 ∧
    (runnerGo cfgLaunchFail oracleLaunchFail).succeeded = false ∧
    (orchestrate {} (fun _ => none) ""
      (runnerGo cfgLaunchFail oracleLaunchFail).shouldPrint
      (runnerGo cfgLaunchFail oracleLaunchFail).programOutput true).fatal = false := by
  refine ⟨by decide, by decide, by decide, by decide, by decide⟩

/-- C1 (amended): a failed launch is not fatal and is not special-cased:
the engine records a descriptive error message as that attempt's output,
gives the attempt the sentinel exit code -1, classifies it through the
normal healthy-exit-code check (so it is unhealthy whenever -1 is not a
configured healthy code), and retries it like any other unhealthy
attempt until the budget is exhausted; the run ends unsuccessful and
surfaced, and the process exit status is unaffected (zero whenever log
persistence succeeds). -/
theorem c1_launch_failure_retried (cfg : RunConfig) (oracle : Nat → AttemptWorld)
    (h : 0 ≤ cfg.retries)
    (hfail : ∀ j, launchFailed (oracle j).result = true)
    (hnot : cfg.healthyExitCodes.contains (-1) = false) :
    attemptsMade cfg oracle = (1 + cfg.retries).toNat ∧
    (runnerGo cfg oracle).succeeded = false ∧
    (runnerGo cfg oracle).shouldPrint = true ∧
    (∀ rec ∈ (runnerGo cfg oracle).attempts,
      rec.exitCode = -1 ∧ ∃ e, rec.output = launchFailureOutput cfg e) ∧
    (∀ dcfg att logDir,
      (orchestrate dcfg att logDir (runnerGo cfg oracle).shouldPrint
        (runnerGo cfg oracle).programOutput true).fatal = false) := by
  have hrec : ∀ j, (attemptRecordAt cfg oracle j).exitCode = -1 ∧
      ∃ e, (attemptRecordAt cfg oracle j).output = launchFailureOutput cfg e := by
    intro j
    have := hfail j
    unfold attemptRecordAt
    cases hr : (oracle j).result with
    | launched ec out => rw [hr] at this; simp [launchFailed] at this
    | launchFailure e => exact ⟨rfl, e, rfl⟩
  have hall : ∀ j, healthyAt cfg oracle j = false := by
    intro j
    unfold healthyAt healthyFor
    rw [(hrec j).1]
    exact hnot
  obtain ⟨ga, gs, gp, -, -, -, -, -, -, -⟩ := runnerGo_spec cfg oracle h
  have hcount := loopCount_all_unhealthy cfg oracle hall (initTries cfg) 0
  have hn : nGo cfg oracle = initTries cfg := hcount
  refine ⟨?_, ?_, ?_, ?_, ?_⟩
  · rw [attemptsMade_eq cfg oracle h, hn]; rfl
  · rw [gs, hall]
  · rw [gp, hall]; simp
  · intro rec hmem
    rw [ga] at hmem
    simp only [List.mem_map] at hmem
    obtain ⟨j, -, rfl⟩ := hmem
    exact hrec j
  · intro dcfg att logDir
    unfold orchestrate writeLogs
    by_cases hd : logDir = "" <;> simp [hd]

/-- Witness for C1 (amended) at the concrete launch-failure run. -/
theorem c1_launch_failure_retried_witness :
    attemptsMade cfgLaunchFail oracleLaunchFail = (1 + cfgLaunchFail.retries).toNat ∧
    (runnerGo cfgLaunchFail oracleLaunchFail).succeeded = false ∧
    (runnerGo cfgLaunchFail oracleLaunchFail).shouldPrint = true :=
  ⟨(c1_launch_failure_retried cfgLaunchFail oracleLaunchFail (by decide)
      (fun _ => rfl) (by decide)).1,
    (c1_launch_failure_retried cfgLaunchFail oracleLaunchFail (by decide)
      (fun _ => rfl) (by decide)).2.1,
    (c1_launch_failure_retried cfgLaunchFail oracleLaunchFail (by decide)
      (fun _ => rfl) (by decide)).2.2.1⟩

/-- C7 counterexample: in the two-attempt run whose attempts span
(0,10) and (100,110), the outcome's start time is 100 — the final
attempt's start, not the first attempt's start 0 — and the report
duration is 10 — the final attempt's duration, not 110 = last end minus
first start.  This refutes "aggregate start time is the first attempt's
start time" and "total duration equals the last attempt's end minus the
first attempt's start". -/
theorem c7_counterexample :
    (runnerGo cfgTwoTries oracleSecondHealthy).attempts.map
      (fun a => (a.startTime, a.endTime)) = [(0, 10), (100, 110)] ∧
    (runnerGo cfgTwoTries oracleSecondHealthy).startTime = 100 ∧
    reportDuration (runnerGo cfgTwoTries oracleSecondHealthy) = 10 ∧
    ¬((runnerGo cfgTwoTries oracleSecondHealthy).startTime = 0) ∧
    ¬(reportDuration (runnerGo cfgTwoTries oracleSecondHealthy) = 110) := by
  refine ⟨by decide, by decide, by decide, by decide, by decide⟩

/-- C7 (amended): the run outcome's aggregate start time is the final
(terminal) attempt's start time, its aggregate end time is the final
attempt's end time (which is also the last attempt's end, as claimed),
and the report's total duration is the final attempt's end minus the
final attempt's start. -/
theorem c7_aggregate_times (cfg : RunConfig) (oracle : Nat → AttemptWorld)
    (h : 0 ≤ cfg.retries) :
    (runnerGo cfg oracle).startTime = (lastAttempt cfg oracle).startTime ∧
    (runnerGo cfg oracle).endTime = (lastAttempt cfg oracle).endTime ∧
    reportDuration (runnerGo cfg oracle) =
      (lastAttempt cfg oracle).endTime - (lastAttempt cfg oracle).startTime := by
  obtain ⟨-, -, -, gst, gen, -, -, -, -, -⟩ := runnerGo_spec cfg oracle h
  have hl := lastAttempt_eq cfg oracle h
  refine ⟨?_, ?_, ?_⟩
  · rw [gst, hl]
  · rw [gen, hl]
  · unfold reportDuration
    rw [gst, gen, hl]

/-- Witness for C7 (amended) at the concrete two-attempt run. -/
theorem c7_aggregate_times_witness :
    (runnerGo cfgTwoTries oracleSecondHealthy).startTime =
        (lastAttempt cfgTwoTries oracleSecondHealthy).startTime ∧
    (runnerGo cfgTwoTries oracleSecondHealthy).endTime =
        (lastAttempt cfgTwoTries oracleSecondHealthy).endTime ∧
    reportDuration (runnerGo cfgTwoTries oracleSecondHealthy) =
      (lastAttempt cfgTwoTries oracleSecondHealthy).endTime -
        (lastAttempt cfgTwoTries oracleSecondHealthy).startTime :=
  c7_aggregate_times cfgTwoTries oracleSecondHealthy (by decide)

/-- C8: the claim says the report's "Exit code" field equals the final
attempt's exit code; the code violates it.  The inner declaration
`exitCode := -1` (src/unnamed/part_005 line 116) shadows the variable
declared at line 70, so the report always renders -1.  Failing input:
a single-attempt run whose child exits 0 — the engine marks the run
succeeded, yet the report renders "Exit code: -1". -/
theorem c8_report_exit_code_bug :
    (runnerGo cfgOneTry oracleHealthyOk).attempts.map
      (fun a => a.exitCode) = [0] ∧
    (runnerGo cfgOneTry oracleHealthyOk).succeeded = true ∧
    (runnerGo cfgOneTry oracleHealthyOk).outerExitCode = -1 ∧
    goContains
      (jobSummaryOutput cfgOneTry (runnerGo cfgOneTry oracleHealthyOk)
        (fun t => toString t) (fun d => toString d))
      "Exit code: -1" = true ∧
    goContains
      (jobSummaryOutput cfgOneTry (runnerGo cfgOneTry oracleHealthyOk)
        (fun t => toString t) (fun d => toString d))
      "Exit code: 0" = false := by
  refine ⟨by decide, by decide, by decide, by decide, by decide⟩

theorem executeDeliveries_fst (cfg : DeliveryConfig) (att : Channel → Option String) :
    (executeDeliveries cfg att).1 = configuredChannels cfg := by
  cases hm : cfg.mail <;> cases hn : cfg.ntfy <;> cases hd : cfg.discord <;>
    simp [executeDeliveries, configuredChannels, hm, hn, hd]

theorem executeDeliveries_snd (cfg : DeliveryConfig) (att : Channel → Option String) :
    (executeDeliveries cfg att).2 =
      (configuredChannels cfg).filterMap (channelResult att) := by
  cases hm : cfg.mail <;> cases hn : cfg.ntfy <;> cases hd : cfg.discord <;>
    cases ham : att Channel.mail <;> cases han : att Channel.ntfy <;>
      cases had : att Channel.discord <;>
        simp [executeDeliveries, configuredChannels, extendErrSlice, channelResult,
          hm, hn, hd, ham, han, had]

/-- C5: delivery fan-out attempts every configured channel exactly once,
in a fixed order; a channel's failure does not prevent the others (the
attempted channels depend only on the configuration, not on outcomes);
the error list has exactly one entry per failed channel, tagged with the
failing channel; it is empty iff every attempted channel succeeded (in
particular when no channel is configured); and with mail and ntfy
configured and only mail failing, ntfy is still attempted and the list
is exactly the one mail error. -/
theorem c5_delivery_fanout (cfg : DeliveryConfig) (att : Channel → Option String) :
    (executeDeliveries cfg att).1 = configuredChannels cfg ∧
    (∀ c : Channel, (configuredChannels cfg).count c ≤ 1) ∧
    (executeDeliveries cfg att).2 =
      (configuredChannels cfg).filterMap (channelResult att) ∧
    ((executeDeliveries cfg att).2 = [] ↔
      ∀ c ∈ configuredChannels cfg, att c = none) ∧
    (∀ e, cfg.mail = true → cfg.ntfy = true → cfg.discord = false →
      att Channel.mail = some e → att Channel.ntfy = none →
      (executeDeliveries cfg att).1 = [Channel.mail, Channel.ntfy] ∧
      (executeDeliveries cfg att).2 = [(Channel.mail, e)]) := by
  refine ⟨executeDeliveries_fst cfg att, ?_, executeDeliveries_snd cfg att, ?_, ?_⟩
  · intro c
    cases c <;> cases hm : cfg.mail <;> cases hn : cfg.ntfy <;>
      cases hd : cfg.discord <;> simp [configuredChannels, hm, hn, hd]
  · rw [executeDeliveries_snd cfg att]
    cases hm : cfg.mail <;> cases hn : cfg.ntfy <;> cases hd : cfg.discord <;>
      cases ham : att Channel.mail <;> cases han : att Channel.ntfy <;>
        cases had : att Channel.discord <;>
          simp [configuredChannels, channelResult, hm, hn, hd, ham, han, had]
  · intro e hm hn hd ham han
    constructor
    · rw [executeDeliveries_fst cfg att]
      simp [configuredChannels, hm, hn, hd]
    · rw [executeDeliveries_snd cfg att]
      simp [configuredChannels, channelResult, hm, hn, hd, ham, han]

/-- Witness for C5 at the two-channel configuration with mail failing. -/
theorem c5_delivery_fanout_witness :
    (executeDeliveries { mail := true, ntfy := true }
      (fun c => if c = Channel.mail then some "connection refused" else none)).1 =
        [Channel.mail, Channel.ntfy] ∧
    (executeDeliveries { mail := true, ntfy := true }
      (fun c => if c = Channel.mail then some "connection refused" else none)).2 =
        [(Channel.mail, "connection refused")] :=
  (c5_delivery_fanout { mail := true, ntfy := true }
      (fun c => if c = Channel.mail then some "connection refused" else none)).2.2.2.2
    "connection refused" rfl rfl rfl (by decide) (by decide)

/-- C6: with a log directory configured, the report is printed and
deliveries are attempted only when the outcome is surfaced; the log file
always receives the full report — prefixed exactly by the report text,
with any delivery errors appended as the labeled section — regardless of
the surfacing decision; a log-persistence failure is fatal while
delivery failures alone are not. -/
theorem c6_log_persistence (dcfg : DeliveryConfig) (att : Channel → Option String)
    (logDir : String) (shouldPrint : Bool) (output : String) (persistOk : Bool)
    (hdir : logDir ≠ "") :
    (orchestrate dcfg att logDir shouldPrint output persistOk).printed =
        (if shouldPrint then some output else none) ∧
    (orchestrate dcfg att logDir shouldPrint output persistOk).channelsAttempted =
        (if shouldPrint then configuredChannels dcfg else []) ∧
    (persistOk = true →
      (orchestrate dcfg att logDir shouldPrint output persistOk).logContent =
        some (writeLogsContent output
          ((orchestrate dcfg att logDir shouldPrint output persistOk).deliveryErrs.map
            renderDeliveryErr))) ∧
    (persistOk = true →
      (orchestrate dcfg att logDir shouldPrint output persistOk).deliveryErrs = [] →
      (orchestrate dcfg att logDir shouldPrint output persistOk).logContent =
        some output) ∧
    (persistOk = true →
      (orchestrate dcfg att logDir shouldPrint output persistOk).deliveryErrs ≠ [] →
      (orchestrate dcfg att logDir shouldPrint output persistOk).logContent =
        some (output ++ deliveryErrsSection
          ((orchestrate dcfg att logDir shouldPrint output persistOk).deliveryErrs.map
            renderDeliveryErr))) ∧
    (persistOk = false →
      (orchestrate dcfg att logDir shouldPrint output persistOk).fatal = true) ∧
    (persistOk = true →
      (orchestrate dcfg att logDir shouldPrint output persistOk).fatal = false) := by
  cases hsp : shouldPrint <;> cases hpk : persistOk <;>
    simp [orchestrate, writeLogs, writeLogsContent, hdir, hsp, hpk,
      executeDeliveries_fst]
  constructor
  · intro he; rw [if_pos he]; simp
  · intro hne; rw [if_neg hne]

/-- Witness for C6 at a concrete surfaced run with one failing channel
and successful persistence. -/
theorem c6_log_persistence_witness :
    (("logs" : String) ≠ "") ∧
    ((orchestrate { mail := true } (fun _ => some "boom") "logs" true "report" true).printed =
      (if true then some "report" else none)) ∧
    ((orchestrate { mail := true } (fun _ => some "boom") "logs" true "report" true).fatal = false) := by
  have h := c6_log_persistence { mail := true } (fun _ => some "boom")
    "logs" true "report" true (by decide)
  exact ⟨by decide, h.1, h.2.2.2.2.2.2 rfl⟩

/-- C9 counterexample: the censored rendering of the 6-character value
"abcdef" is "a[4 chars]f": the number shown is 4 = length - 2, and the
value's length 6 appears nowhere in the placeholder.  This refutes "a
placeholder consisting of its first character, its length, and its last
character". -/
theorem c9_counterexample :
    censoredEnvVarValue ["MY_SECRET"] "MY_SECRET" "abcdef" = "a[4 chars]f" ∧
    ("abcdef" : String).length = 6 ∧
    goContains (censoredEnvVarValue ["MY_SECRET"] "MY_SECRET" "abcdef") "6" = false := by
  refine ⟨by decide, by decide, by decide⟩

/-- C9 (amended): for a value subject to censoring, a value of length
< 5 is rendered as a pure length placeholder, and a value of length ≥ 5
is rendered as its first character, the count of concealed middle
characters (its length minus two), and its last character; the rendering
depends only on the value's first character, length, and last character,
never on the rest of the raw value. -/
theorem c9_censor_placeholder (censoredVars : List String) (varName value : String)
    (hcens : stringSliceContains censoredVars varName = true ∨
      varName = SMTPPassEnvVar) :
    (value.length < 5 →
      censoredEnvVarValue censoredVars varName value =
        "[" ++ toString value.length ++ " chars]") ∧
    (5 ≤ value.length →
      censoredEnvVarValue censoredVars varName value =
        String.mk [value.data.headD 'x'] ++ "[" ++ toString (value.length - 2) ++
          " chars]" ++ String.mk [value.data.getLastD 'x']) ∧
    (∀ value2 : String, value2.length = value.length →
      value2.data.headD 'x' = value.data.headD 'x' →
      value2.data.getLastD 'x' = value.data.getLastD 'x' →
      censoredEnvVarValue censoredVars varName value2 =
        censoredEnvVarValue censoredVars varName value) := by
  have hguard : ∀ w : String,
      censoredEnvVarValue censoredVars varName w =
        (if w.length < minLenForCensorHint then
          "[" ++ toString w.length ++ " chars]"
        else
          String.mk [w.data.headD 'x'] ++ "[" ++ toString (w.length - 2) ++
            " chars]" ++ String.mk [w.data.getLastD 'x']) := by
    intro w
    unfold censoredEnvVarValue
    rcases hcens with hc | hc
    · rw [hc]; simp
    · rw [hc]; simp
  refine ⟨?_, ?_, ?_⟩
  · intro hlt
    rw [hguard value, if_pos (by simpa [minLenForCensorHint] using hlt)]
  · intro hge
    rw [hguard value, if_neg (by simp [minLenForCensorHint]; omega)]
  · intro value2 hlen hhead hlast
    rw [hguard value, hguard value2, hlen, hhead, hlast]

/-- Witness for C9 (amended) at a censored 6-character value. -/
theorem c9_censor_placeholder_witness :
    (stringSliceContains ["MY_SECRET"] "MY_SECRET" = true ∨
      ("MY_SECRET" : String) = SMTPPassEnvVar) ∧
    (5 ≤ ("abcdef" : String).length →
      censoredEnvVarValue ["MY_SECRET"] "MY_SECRET" "abcdef" =
        String.mk [("abcdef" : String).data.headD 'x'] ++ "[" ++
          toString (("abcdef" : String).length - 2) ++ " chars]" ++
          String.mk [("abcdef" : String).data.getLastD 'x']) :=
  ⟨Or.inl (by decide),
    (c9_censor_placeholder ["MY_SECRET"] "MY_SECRET" "abcdef"
      (Or.inl (by decide))).2.1⟩

/-- C10: `IntSlice.Set` never returns an error: a value that parses as
an integer is appended, and a value that does not parse is silently
appended as -1; consequently a healthy-exit set built from a
non-numeric argument contains -1, the engine's sentinel exit code for
an attempt whose child produced no exit status, so such an attempt is
classified healthy. -/
theorem c10_intslice_set (s : List Int) (v : String) (cfg : RunConfig)
    (oracle : Nat → AttemptWorld) (j : Nat) :
    (IntSliceSet s v).2 = none ∧
    (∀ n, goAtoi v = some n → (IntSliceSet s v).1 = s ++ [n]) ∧
    (goAtoi v = none → (IntSliceSet s v).1 = s ++ [-1]) ∧
    (goAtoi v = none → cfg.healthyExitCodes = (IntSliceSet [] v).1 →
      launchFailed (oracle j).result = true → healthyAt cfg oracle j = true) := by
  refine ⟨?_, ?_, ?_, ?_⟩
  · cases hv : goAtoi v <;> simp [IntSliceSet, hv]
  · intro n hv; simp [IntSliceSet, hv]
  · intro hv; simp [IntSliceSet, hv]
  · intro hv hcodes hlf
    have hx : attemptExit (oracle j).result = -1 := by
      cases hr : (oracle j).result with
      | launched ec out => rw [hr] at hlf; simp [launchFailed] at hlf
      | launchFailure e => rfl
    unfold healthyAt healthyFor attemptRecordAt
    rw [hx, hcodes]
    simp [IntSliceSet, hv]

/-- Witness for C10 at the non-numeric argument "always" and a
launch-failure attempt. -/
theorem c10_intslice_set_witness :
    (IntSliceSet [] "always").2 = none ∧
    healthyAt { cfgLaunchFail with healthyExitCodes := (IntSliceSet [] "always").1 }
      oracleLaunchFail 0 = true :=
  ⟨(c10_intslice_set [] "always"
      { cfgLaunchFail with healthyExitCodes := (IntSliceSet [] "always").1 }
      oracleLaunchFail 0).1,
    (c10_intslice_set [] "always"
      { cfgLaunchFail with healthyExitCodes := (IntSliceSet [] "always").1 }
      oracleLaunchFail 0).2.2.2 (by decide) rfl rfl⟩

end Runner
